import Mathlib

/-!
# Verification of the vaani-sentinel-x scheduling and publication core

A shallow embedding of `agents/scheduler.py` and `agents/publisher_sim.py`.

Modelling conventions:
* Python dicts with string keys/values are association lists (`Dict`); key
  assignment prepends (later assignments shadow earlier ones, exactly like
  dict mutation as far as `get`/`in` are concerned).
* Timestamps are natural numbers.  The code stores `scheduled_time` as a
  `'%Y-%m-%d %H:%M:%S'` string and compares it with SQL TEXT comparison;
  for this fixed-width zero-padded format, lexicographic comparison agrees
  with chronological comparison, so `Nat` with `≤` is order-isomorphic.
  One time unit is one minute (the code schedules at 5-minute steps).
* `datetime.now()` is modelled by a clock function `clock : Nat → Nat`
  giving the wall time at the k-th insertion of a run.
* The sqlite `scheduled_posts` table is a `List Row` in insertion order
  (`INSERT` appends; `UPDATE`/`SELECT` traverse all rows).
* `uuid.uuid4()` is modelled by a threaded fresh counter (`nextId`): each
  generated id is distinct from every previously generated one.
* Python exceptions are modelled with `Except`: operations that can raise
  return `Except PErr α`; a `try`/`except` block is a `match` on that
  result.  Operations whose Python body catches every exception internally
  are total functions.
-/

namespace Vaani

/-- A Python dict with string keys and values (association list; the most
recently assigned binding is found first). -/
abbrev Dict := List (String × String)

/-- `d.get(k)`: first binding of `k`, if any. -/
def dget (d : Dict) (k : String) : Option String :=
  (d.find? (fun p => p.1 == k)).map (fun p => p.2)

/-- `d[k] = v`: assignment shadows any earlier binding. -/
def dset (d : Dict) (k v : String) : Dict := (k, v) :: d

/-! Python's `str.startswith`, `str.endswith`, slicing and emptiness,
implemented over the character list (so that all definitions evaluate by
kernel reduction). -/

/-- `s.startswith(pre)`. -/
def strStartsWith (s pre : String) : Bool := pre.data.isPrefixOf s.data

/-- `s.endswith(post)`. -/
def strEndsWith (s post : String) : Bool := post.data.reverse.isPrefixOf s.data.reverse

/-- `s[n:]`. -/
def strDrop (s : String) (n : Nat) : String := ⟨s.data.drop n⟩

/-- `s[:-n]` (for `n ≤ len(s)`). -/
def strDropRight (s : String) (n : Nat) : String := ⟨s.data.take (s.data.length - n)⟩

/-- `s[:n]`. -/
def strTake (s : String) (n : Nat) : String := ⟨s.data.take n⟩

/-- `s == ''`. -/
def strIsEmpty (s : String) : Bool := s.data.isEmpty

/-- `all(p(c) for c in s)`. -/
def strAll (s : String) (p : Char → Bool) : Bool := s.data.all p

/-- A row of the `scheduled_posts` table
(`content_id, platform, content_type, content, scheduled_time, status, post_id, lang`). -/
structure Row where
  content_id : String
  platform : String
  content_type : String
  content : String
  scheduled_time : Nat
  status : String
  post_id : Nat
  lang : String
deriving Repr, DecidableEq

/-- The scheduler's supported languages (`Scheduler.__init__`). -/
def supported_languages : List String :=
  ["en", "hi", "sa", "mr", "ta", "te", "kn", "ml", "bn", "gu", "pa",
   "es", "fr", "de", "zh", "ja", "ru", "ar", "pt", "it"]

/-- The enumerated platform set checked by `Scheduler.validate_content`. -/
def platformEnum : List String := ["twitter", "instagram", "linkedin", "sanatan"]

/-- The enumerated content-type set checked by `Scheduler.validate_content`. -/
def ctEnum : List String := ["tweet", "post", "voice_script"]

/-- The `content_type` local of `Scheduler.validate_content`:
`content_data.get('content_type', 'voice_script' if 'voice_script' in content_data else '')`. -/
def vcContentType (content_data : Dict) : String :=
  (dget content_data "content_type").getD
    (if (dget content_data "voice_script").isSome then "voice_script" else "")

/-- The dict mutation performed by `Scheduler.validate_content`: it assigns
the computed `content_type` and defaults `platform` (to `sanatan` for voice
scripts, `''` otherwise) when absent. -/
def vcDict (content_data : Dict) : Dict :=
  let d := dset content_data "content_type" (vcContentType content_data)
  dset d "platform"
    ((dget d "platform").getD
      (if vcContentType content_data == "voice_script" then "sanatan" else ""))

/-- The `missing_fields` local of `Scheduler.validate_content`:
`content_id` and `language` are always required, and the content field
(`voice_script` for voice scripts, otherwise the content type itself) is
required when absent. -/
def vcMissing (content_data : Dict) : List String :=
  let content_field :=
    if vcContentType content_data == "voice_script" then "voice_script"
    else vcContentType content_data
  let required_fields := ["content_id", "language"] ++
    (if (dget (vcDict content_data) content_field).isNone then [content_field] else [])
  required_fields.filter (fun f => (dget (vcDict content_data) f).isNone)

/-- `Scheduler.validate_content`.  Mutates the dict (defaults `content_type`
and `platform`), then checks required fields, platform, language and
content type.  Returns the verdict together with the mutated dict. -/
def validate_content (content_data : Dict) : Bool × Dict :=
  let d := vcDict content_data
  if !(vcMissing content_data).isEmpty then (false, d)
  else if !(platformEnum.contains ((dget d "platform").getD "")) then (false, d)
  else if !(supported_languages.contains ((dget d "language").getD "")) then (false, d)
  else if !(ctEnum.contains (vcContentType content_data)) then (false, d)
  else (true, d)

/-- The per-run state of a `Scheduler` instance plus its database:
the run-scoped counter (`self.schedule_counter`), the uuid freshness
source, and the `scheduled_posts` table. -/
structure SchedState where
  counter : Nat
  nextId : Nat
  store : List Row
deriving Repr, DecidableEq

/-- The state at the beginning of a run (`Scheduler.__init__` sets the
counter to 0; the table is created empty). -/
def initState : SchedState := ⟨0, 0, []⟩

/-- `Scheduler.schedule_content`.  For each item: validate (skipping
invalid items), skip on platform mismatch, otherwise advance the counter,
compute `scheduled_time = now + 5 * counter` and insert a `pending` row.
Returns the list of rows created together with the new state. -/
def schedule_content (clock : Nat → Nat) (platform content_type lang : String) :
    List Dict → SchedState → List Row × SchedState
  | [], st => ([], st)
  | item :: rest, st =>
    match validate_content item with
    | (false, _) => schedule_content clock platform content_type lang rest st
    | (true, item') =>
      let content_id := (dget item' "content_id").getD ""
      let file_platform := dget item' "platform"
      let content := (dget item'
        (if content_type != "voice_script" then content_type else "voice_script")).getD ""
      if file_platform != some platform then
        schedule_content clock platform content_type lang rest st
      else
        let counter' := st.counter + 1
        let scheduled_time := clock counter' + 5 * counter'
        let row : Row :=
          ⟨content_id, platform, content_type, content, scheduled_time, "pending",
            st.nextId, lang⟩
        let st' : SchedState := ⟨counter', st.nextId + 1, st.store ++ [row]⟩
        let res := schedule_content clock platform content_type lang rest st'
        (row :: res.1, res.2)

/-- One `schedule_content` invocation made by `Scheduler.run_scheduler`:
the loaded items of one (language, content-type, platform) group. -/
structure Call where
  items : List Dict
  platform : String
  content_type : String
  lang : String

/-- The sequence of `schedule_content` calls of one scheduling run,
threading the scheduler state; returns all created rows and the final
state. -/
def runCalls (clock : Nat → Nat) : List Call → SchedState → List Row × SchedState
  | [], st => ([], st)
  | c :: cs, st =>
    let r := schedule_content clock c.platform c.content_type c.lang c.items st
    let rest := runCalls clock cs r.2
    (r.1 ++ rest.1, rest.2)

/-- `Scheduler.run_scheduler`: drops and recreates the `scheduled_posts`
table (so the run starts from an empty store regardless of the prior
contents `_priorStore`), then performs this run's `schedule_content`
calls with a fresh `Scheduler` state. -/
def run_scheduler (clock : Nat → Nat) (calls : List Call) (_priorStore : List Row) :
    SchedState :=
  (runCalls clock calls initState).2

/-- The `scheduled_time` column of the store, in insertion order. -/
def storeTimes (s : List Row) : List Nat := s.map Row.scheduled_time

/-! ### Publisher data model (`agents/publisher_sim.py`) -/

/-- A Python exception as observed by the publisher's handlers:
`FileNotFoundError` is caught by the content/audio lookups themselves;
any other exception (`other`) escapes them. -/
inductive PErr
  | notFound
  | other (msg : String)
deriving Repr, DecidableEq

/-- The publisher's external environment: the per-language content
directories (`os.listdir`, which can raise), the artifact file contents
(`load_json`, which catches its own exceptions and returns `{}`), the
parsed `translated_content.json`, whether writing an output record raises,
and the wall time. -/
structure Env where
  listdir : String → Except PErr (List String)
  readJson : String → Dict
  translated : List Dict
  writeFails : Bool
  now : Nat

/-- The value under the `content` key of a formatted post: a plain string,
or (for LinkedIn) a `{title, summary}` object. -/
inductive ContentVal
  | str (s : String)
  | titleSummary (title summary : String)
deriving Repr, DecidableEq

/-- A formatted post record (`post_data` in `format_content`).  `content`
is `none` when the platform is outside the four known ones — the Python
dict then has no `content` key and `publish_to_platform` raises `KeyError`
on access. -/
structure PostData where
  post_id : Nat
  content_id : String
  platform : String
  language : String
  tone : String
  voice_tag : String
  dummy_audio_path : String
  preferred_languages : String
  publish_time : Nat
  status : String
  content : Option ContentVal
  extra_audio : String
  format : String
deriving Repr, DecidableEq

/-- The publisher's mutable world: the `scheduled_posts` table, the
written output records (path ↦ contents), and the uuid freshness source. -/
structure PubState where
  store : List Row
  records : List (String × PostData)
  nextId : Nat
deriving Repr, DecidableEq

/-- A row of `fetch_due_posts`'s result:
`(content_id, platform, content_type, lang)`. -/
abbrev DuePost := String × String × String × String

/-! ### Publisher operations -/

/-- `update_status`: `UPDATE scheduled_posts SET status = ? WHERE
content_id = ? AND platform = ? AND lang = ?` — every row matching the
triple is updated; no other row is touched. -/
def update_status (content_id platform lang status : String) (store : List Row) :
    List Row :=
  store.map (fun r =>
    if r.content_id == content_id && r.platform == platform && r.lang == lang then
      { r with status := status }
    else r)

/-- `fetch_due_posts`: `SELECT content_id, platform, content_type, lang
FROM scheduled_posts WHERE status = 'pending' AND scheduled_time <= now`
plus `AND lang = ?` when a specific language is selected. -/
def fetch_due_posts (store : List Row) (selected_language : String) (now : Nat) :
    List DuePost :=
  (store.filter (fun r =>
      r.status == "pending" && decide (r.scheduled_time ≤ now) &&
        (selected_language == "all" || r.lang == selected_language))).map
    (fun r => (r.content_id, r.platform, r.content_type, r.lang))

/-- A character of the `[0-9a-f]` class. -/
def hexChar (c : Char) : Bool := c.isDigit || ('a' ≤ c && c ≤ 'f')

/-- Whether a filename matches `get_content_file`'s pattern
`^{content_type}_{content_id}_{platform}_[0-9a-f]+\.json$` (with the three
parameters read literally). -/
def matchesContentPattern (content_type content_id platform fname : String) : Bool :=
  let pre := content_type ++ "_" ++ content_id ++ "_" ++ platform ++ "_"
  strStartsWith fname pre && strEndsWith fname ".json" &&
    (let mid := strDropRight (strDrop fname pre.length) 5
     !(strIsEmpty mid) && strAll mid hexChar)

/-- `get_content_file`: scan the language directory for the first filename
matching the pattern; a missing directory (`FileNotFoundError`) is caught
and reported as `''` (not found), but any other exception from the listing
escapes. -/
def get_content_file (env : Env) (content_id content_type lang platform : String) :
    Except PErr String :=
  match env.listdir lang with
  | .error .notFound => .ok ""
  | .error e => .error e
  | .ok files =>
    match files.find? (fun f => matchesContentPattern content_type content_id platform f) with
    | some f => .ok (lang ++ "/" ++ f)
    | none => .ok ""

/-- `get_audio_file`: first look for a TTS item with a non-empty
`dummy_audio_path` for the (content, language, platform) triple, then scan
the language directory for `voice_{content_id}_{platform}_*.mp3`; a missing
directory is caught and reported as `''`, other listing exceptions escape. -/
def get_audio_file (env : Env) (content_id lang platform : String)
    (tts_data : List Dict) : Except PErr String :=
  match tts_data.find? (fun item =>
      dget item "content_id" == some content_id &&
        dget item "language" == some lang && dget item "platform" == some platform &&
        (dget item "dummy_audio_path").getD "" != "") with
  | some item => .ok ((dget item "dummy_audio_path").getD "")
  | none =>
    match env.listdir lang with
    | .error .notFound => .ok ""
    | .error e => .error e
    | .ok files =>
      match files.find? (fun f =>
          strStartsWith f ("voice_" ++ content_id ++ "_" ++ platform ++ "_") &&
            strEndsWith f ".mp3") with
      | some f => .ok (lang ++ "/" ++ f)
      | none => .ok ""

/-- `load_translated_content`: the first translated item matching content
id and language, or `{}`; every failure is caught internally. -/
def load_translated_content (env : Env) (content_id lang : String) : Dict :=
  match env.translated.find? (fun item =>
      dget item "content_id" == some content_id && dget item "language" == some lang) with
  | some item => item
  | none => []

/-- Python truthiness of an optional dict (`None` and `{}` are falsy). -/
def dtruthy : Option Dict → Bool
  | none => false
  | some d => !d.isEmpty

/-- `format_content`: build the platform-specific `post_data` record.
`uid` models the fresh `uuid.uuid4()` and `now` the `datetime.now()`
publish timestamp. -/
def format_content (content : Dict) (content_type platform audio_file lang : String)
    (translation : Dict) (tts_item : Option Dict) (uid : Nat) (now : Nat) : PostData :=
  let content_id := (dget content "content_id").getD ((dget content "id").getD "unknown")
  let baseText := (dget content
    (if content_type != "voice_script" then content_type else "voice_script")).getD ""
  let content_text :=
    if !translation.isEmpty then (dget translation "translated_text").getD baseText
    else baseText
  let tone :=
    if !translation.isEmpty then
      (dget translation "sentiment").getD ((dget content "sentiment").getD "neutral")
    else (dget content "sentiment").getD "neutral"
  let voice_tag :=
    if dtruthy tts_item then (dget (tts_item.getD []) "voice_tag").getD ""
    else (dget content "voice_tag").getD ""
  let dummy_audio_path :=
    if dtruthy tts_item then (dget (tts_item.getD []) "dummy_audio_path").getD audio_file
    else audio_file
  let preferred_languages :=
    if !translation.isEmpty then
      (dget translation "preferred_languages").getD
        ((dget content "preferred_languages").getD "")
    else (dget content "preferred_languages").getD ""
  let platformFields : Option ContentVal × String × String :=
    if platform == "instagram" then
      (some (.str (content_text ++ "\n#Inspiration #Multilingual")),
        if content_type == "voice_script" then dummy_audio_path else "",
        "multilingual text + audio thumbnail")
    else if platform == "twitter" then
      (some (.str (if content_type == "tweet" then strTake content_text 280
        else content_text)),
        if content_type == "voice_script" then dummy_audio_path else "",
        "multilingual short text + TTS snippet")
    else if platform == "linkedin" then
      (some (.titleSummary ("Multilingual Insight " ++ content_id) content_text),
        if content_type == "voice_script" then dummy_audio_path else "",
        "multilingual title + summary + TTS")
    else if platform == "sanatan" then
      (some (.str content_text),
        if content_type == "voice_script" then dummy_audio_path else "",
        "multilingual voice script + audio")
    else (none, "", "")
  { post_id := uid, content_id := content_id, platform := platform, language := lang,
    tone := tone, voice_tag := voice_tag, dummy_audio_path := dummy_audio_path,
    preferred_languages := preferred_languages, publish_time := now,
    status := "pending", content := platformFields.1, extra_audio := platformFields.2.1,
    format := platformFields.2.2 }

/-- The output record path
`post_{content_id}_{platform}_{post_data['post_id']}.json`. -/
def out_path (pd : PostData) : String :=
  "post_" ++ pd.content_id ++ "_" ++ pd.platform ++ "_" ++ toString pd.post_id ++ ".json"

/-- `open(output_path, 'w')` + `json.dump`: overwrite an existing file at
that path, else create it. -/
def upsertRecord (records : List (String × PostData)) (path : String) (pd : PostData) :
    List (String × PostData) :=
  if records.any (fun r => r.1 == path) then
    records.map (fun r => if r.1 == path then (path, pd) else r)
  else records ++ [(path, pd)]

/-- The simulated delivery policy: a supported platform always succeeds. -/
def platform_ok (platform : String) : Bool :=
  ["twitter", "instagram", "linkedin", "sanatan"].contains platform

/-- Writing the output record: raises (caught by the caller, yielding
`False`) when the filesystem write fails, else records the file. -/
def writeRecord (env : Env) (pd : PostData) (st : PubState) : Bool × PubState :=
  if env.writeFails then (false, st)
  else (true, { st with records := upsertRecord st.records (out_path pd) pd })

/-- `publish_to_platform`: format the payload (consuming a fresh uuid),
read its `content` key (`KeyError` for an unknown platform is caught by
the surrounding handler, yielding `False`), apply the simulated delivery
policy unless in preview mode, and write the output record.  Any exception
inside is caught and reported as `False`. -/
def publish_to_platform (env : Env) (platform : String) (content : Dict)
    (content_type audio_file : String) (preview_mode : Bool) (lang : String)
    (translation : Dict) (tts_item : Option Dict) (st : PubState) : Bool × PubState :=
  let post_data :=
    format_content content content_type platform audio_file lang translation tts_item
      st.nextId env.now
  let st := { st with nextId := st.nextId + 1 }
  if post_data.content.isNone then (false, st)
  else if !preview_mode then
    if platform_ok platform then writeRecord env { post_data with status := "success" } st
    else (false, st)
  else writeRecord env { post_data with status := "preview" } st

/-- `publish_content`: locate the artifact (an exception here, other than
the internally handled `FileNotFoundError`, propagates to the caller),
then — inside a `try` whose handler marks the entry `failed` — load it,
look up translation/TTS data, require an audio file for sanatan voice
scripts, publish, and write the terminal status. -/
def publish_content (env : Env) (tts_data : List Dict)
    (content_id platform content_type lang : String) (preview_mode : Bool)
    (st : PubState) : Except PErr (Bool × PubState) :=
  match get_content_file env content_id content_type lang platform with
  | .error e => .error e
  | .ok content_file =>
    if content_file == "" then
      .ok (false, { st with store := update_status content_id platform lang "failed" st.store })
    else
      let content := env.readJson content_file
      let translation := load_translated_content env content_id lang
      let tts_item := tts_data.find? (fun item =>
        dget item "content_id" == some content_id &&
          dget item "language" == some lang && dget item "platform" == some platform)
      match (if content_type == "voice_script" then
          get_audio_file env content_id lang platform tts_data
        else .ok "") with
      | .error _ =>
        .ok (false,
          { st with store := update_status content_id platform lang "failed" st.store })
      | .ok audio_file =>
        if content_type == "voice_script" && platform == "sanatan" && audio_file == "" then
          .ok (false,
            { st with store := update_status content_id platform lang "failed" st.store })
        else
          let r := publish_to_platform env platform content content_type audio_file
            preview_mode lang translation tts_item st
          if r.1 then
            .ok (true,
              { r.2 with store := (update_status content_id platform lang
                  (if !preview_mode then "published" else "preview") r.2.store) })
          else
            .ok (false,
              { r.2 with store := update_status content_id platform lang "failed" r.2.store })

/-- The publisher's per-entry processing loop from `run_publisher_sim`:
each due entry is published in turn; an exception escaping
`publish_content` aborts the whole batch (the loop has no handler). -/
def processDue (env : Env) (tts_data : List Dict) (preview_mode : Bool) :
    List DuePost → PubState → Except PErr PubState
  | [], st => .ok st
  | (content_id, platform, content_type, lang) :: rest, st =>
    match publish_content env tts_data content_id platform content_type lang
        preview_mode st with
    | .error e => .error e
    | .ok (_, st') => processDue env tts_data preview_mode rest st'

/-- The store states observed while processing a due batch: the store
before each publish, and the final store (cut short if an exception aborts
the batch). -/
def storeTrace (env : Env) (tts_data : List Dict) (preview_mode : Bool) :
    List DuePost → PubState → List (List Row)
  | [], st => [st.store]
  | (content_id, platform, content_type, lang) :: rest, st =>
    match publish_content env tts_data content_id platform content_type lang
        preview_mode st with
    | .error _ => [st.store]
    | .ok (_, st') => st.store :: storeTrace env tts_data preview_mode rest st'

/-! ### Publisher decomposition lemmas

`publish_content`'s verdict and the status string it writes depend only on
the environment and the entry's coordinates, not on the threaded state;
`pubOutcome` computes them.  The lemmas below relate the two. -/

/-- The Boolean that `publish_to_platform` returns (state-independent). -/
def pubPlatformOutcome (env : Env) (platform : String) (content : Dict)
    (content_type audio_file lang : String) (preview_mode : Bool)
    (translation : Dict) (tts_item : Option Dict) : Bool :=
  if (format_content content content_type platform audio_file lang translation
      tts_item 0 env.now).content.isNone then false
  else if !preview_mode then
    if platform_ok platform then !env.writeFails else false
  else !env.writeFails

/-- The fields of a formatted post other than `post_id` do not depend on
the generated uuid, and `post_id` is exactly the generated uuid. -/
theorem format_content_uid (c : Dict) (ct p a l : String) (tr : Dict)
    (tt : Option Dict) (uid uid' now : Nat) :
    (format_content c ct p a l tr tt uid now).content
        = (format_content c ct p a l tr tt uid' now).content ∧
      (format_content c ct p a l tr tt uid now).post_id = uid :=
  ⟨rfl, rfl⟩

/-- `publish_to_platform` characterized: its verdict is
`pubPlatformOutcome`; it never touches the store; it consumes exactly one
uuid; on success it writes exactly one output record (at a path built from
the fresh uuid), on failure none. -/
theorem publish_to_platform_spec (env : Env) (platform : String) (content : Dict)
    (content_type audio_file : String) (preview_mode : Bool) (lang : String)
    (translation : Dict) (tts_item : Option Dict) (st : PubState) :
    (publish_to_platform env platform content content_type audio_file preview_mode
          lang translation tts_item st).1
        = pubPlatformOutcome env platform content content_type audio_file lang
            preview_mode translation tts_item ∧
      (publish_to_platform env platform content content_type audio_file preview_mode
          lang translation tts_item st).2.store = st.store ∧
      (publish_to_platform env platform content content_type audio_file preview_mode
          lang translation tts_item st).2.nextId = st.nextId + 1 ∧
      ((publish_to_platform env platform content content_type audio_file preview_mode
            lang translation tts_item st).1 = true →
        ∃ pd : PostData, pd.post_id = st.nextId ∧
          (publish_to_platform env platform content content_type audio_file preview_mode
              lang translation tts_item st).2.records
            = upsertRecord st.records (out_path pd) pd) ∧
      ((publish_to_platform env platform content content_type audio_file preview_mode
            lang translation tts_item st).1 = false →
        (publish_to_platform env platform content content_type audio_file preview_mode
            lang translation tts_item st).2.records = st.records) := by
  have hcc := (format_content_uid content content_type platform audio_file lang
    translation tts_item st.nextId 0 env.now).1
  have hnn : (format_content content content_type platform audio_file lang translation
        tts_item 0 env.now).content.isNone
      = (format_content content content_type platform audio_file lang translation
        tts_item st.nextId env.now).content.isNone := by rw [hcc]
  simp only [publish_to_platform, pubPlatformOutcome]
  rw [hnn]
  by_cases hn : (format_content content content_type platform audio_file lang translation
      tts_item st.nextId env.now).content.isNone = true
  · simp [hn]
  · cases preview_mode with
    | false =>
      cases hp : platform_ok platform with
      | false => simp [hn, hp, writeRecord]
      | true =>
        cases hw : env.writeFails with
        | false =>
          refine ⟨by simp [hn, hp, writeRecord, hw], by simp [hn, hp, writeRecord, hw],
            by simp [hn, hp, writeRecord, hw], ?_, by simp [hn, hp, writeRecord, hw]⟩
          intro _
          refine ⟨{ format_content content content_type platform audio_file lang
            translation tts_item st.nextId env.now with status := "success" }, ?_, ?_⟩
          · exact (format_content_uid content content_type platform audio_file lang
              translation tts_item st.nextId 0 env.now).2
          · simp [hn, hp, writeRecord, hw]
        | true => simp [hn, hp, writeRecord, hw]
    | true =>
      cases hw : env.writeFails with
      | false =>
        refine ⟨by simp [hn, writeRecord, hw], by simp [hn, writeRecord, hw],
          by simp [hn, writeRecord, hw], ?_, by simp [hn, writeRecord, hw]⟩
        intro _
        refine ⟨{ format_content content content_type platform audio_file lang
          translation tts_item st.nextId env.now with status := "preview" }, ?_, ?_⟩
        · exact (format_content_uid content content_type platform audio_file lang
            translation tts_item st.nextId 0 env.now).2
        · simp [hn, writeRecord, hw]
      | true => simp [hn, writeRecord, hw]

/-- The verdict and written status of `publish_content`, as a function of
the environment and the entry's coordinates only. -/
def pubOutcome (env : Env) (tts_data : List Dict)
    (content_id platform content_type lang : String) (preview_mode : Bool) :
    Except PErr (Bool × String) :=
  match get_content_file env content_id content_type lang platform with
  | .error e => .error e
  | .ok content_file =>
    if content_file == "" then .ok (false, "failed")
    else
      match (if content_type == "voice_script" then
          get_audio_file env content_id lang platform tts_data
        else .ok "") with
      | .error _ => .ok (false, "failed")
      | .ok audio_file =>
        if content_type == "voice_script" && platform == "sanatan" && audio_file == "" then
          .ok (false, "failed")
        else if pubPlatformOutcome env platform (env.readJson content_file) content_type
            audio_file lang preview_mode (load_translated_content env content_id lang)
            (tts_data.find? (fun item =>
              dget item "content_id" == some content_id &&
                dget item "language" == some lang &&
                dget item "platform" == some platform)) then
          .ok (true, if !preview_mode then "published" else "preview")
        else .ok (false, "failed")

/-- Master decomposition of `publish_content`: it propagates exactly the
errors of `pubOutcome`, and otherwise returns `pubOutcome`'s verdict, with
a store obtained from the initial one by a single `update_status` with the
computed status; records grow by exactly one freshly-named file on
success and are untouched on failure. -/
theorem publish_content_spec (env : Env) (tts_data : List Dict)
    (content_id platform content_type lang : String) (preview_mode : Bool)
    (st : PubState) :
    (∀ e, pubOutcome env tts_data content_id platform content_type lang preview_mode
          = .error e →
        publish_content env tts_data content_id platform content_type lang preview_mode st
          = .error e) ∧
      ∀ b s, pubOutcome env tts_data content_id platform content_type lang preview_mode
          = .ok (b, s) →
        ∃ recs nid,
          publish_content env tts_data content_id platform content_type lang preview_mode st
              = .ok (b, ⟨update_status content_id platform lang s st.store, recs, nid⟩) ∧
            (b = false → recs = st.records) ∧
            (b = true → ∃ pd : PostData, pd.post_id = st.nextId ∧ nid = st.nextId + 1 ∧
              recs = upsertRecord st.records (out_path pd) pd) := by
  simp only [publish_content, pubOutcome]
  cases hg : get_content_file env content_id content_type lang platform with
  | error e =>
    exact ⟨fun e' he => by simpa using he, fun b s hbs => by simp at hbs⟩
  | ok content_file =>
    by_cases hcf : (content_file == "") = true
    · simp only [hcf, if_true]
      refine ⟨fun e' he => by simp at he, fun b s hbs => ?_⟩
      obtain ⟨rfl, rfl⟩ : b = false ∧ s = "failed" := by
        simpa [eq_comm, and_comm] using hbs
      exact ⟨st.records, st.nextId, by simp, fun _ => rfl, by simp⟩
    · simp only [hcf, if_false]
      cases ha : (if content_type == "voice_script" then
          get_audio_file env content_id lang platform tts_data
        else .ok "") with
      | error e' =>
        refine ⟨fun e'' he => by simp at he, fun b s hbs => ?_⟩
        obtain ⟨rfl, rfl⟩ : b = false ∧ s = "failed" := by
          simpa [eq_comm, and_comm] using hbs
        exact ⟨st.records, st.nextId, by simp, fun _ => rfl, by simp⟩
      | ok audio_file =>
        by_cases hguard : (content_type == "voice_script" && platform == "sanatan"
            && audio_file == "") = true
        · simp only [hguard, if_true]
          refine ⟨fun e'' he => by simp at he, fun b s hbs => ?_⟩
          obtain ⟨rfl, rfl⟩ : b = false ∧ s = "failed" := by
            simpa [eq_comm, and_comm] using hbs
          exact ⟨st.records, st.nextId, by simp, fun _ => rfl, by simp⟩
        · have hspec := publish_to_platform_spec env platform (env.readJson content_file)
            content_type audio_file preview_mode lang
            (load_translated_content env content_id lang)
            (tts_data.find? (fun item =>
              dget item "content_id" == some content_id &&
                dget item "language" == some lang &&
                dget item "platform" == some platform)) st
          simp only [hguard, if_false]
          cases hpo : pubPlatformOutcome env platform (env.readJson content_file)
              content_type audio_file lang preview_mode
              (load_translated_content env content_id lang)
              (tts_data.find? (fun item =>
                dget item "content_id" == some content_id &&
                  dget item "language" == some lang &&
                  dget item "platform" == some platform)) with
          | false =>
            refine ⟨fun e'' he => by simp at he, fun b s hbs => ?_⟩
            obtain ⟨rfl, rfl⟩ : b = false ∧ s = "failed" := by
              simpa [eq_comm, and_comm] using hbs
            have h1 : (publish_to_platform env platform (env.readJson content_file)
                content_type audio_file preview_mode lang
                (load_translated_content env content_id lang)
                (tts_data.find? (fun item =>
                  dget item "content_id" == some content_id &&
                    dget item "language" == some lang &&
                    dget item "platform" == some platform)) st).1 = false := by
              rw [hspec.1, hpo]
            refine ⟨st.records, st.nextId + 1, ?_, fun _ => rfl, by simp⟩
            have hrec := hspec.2.2.2.2 h1
            simp [h1, hspec.2.1, hspec.2.2.1, hrec]
          | true =>
            refine ⟨fun e'' he => by simp at he, fun b s hbs => ?_⟩
            simp only [Except.ok.injEq, Prod.mk.injEq] at hbs
            obtain ⟨rfl, rfl⟩ := hbs
            have h1 : (publish_to_platform env platform (env.readJson content_file)
                content_type audio_file preview_mode lang
                (load_translated_content env content_id lang)
                (tts_data.find? (fun item =>
                  dget item "content_id" == some content_id &&
                    dget item "language" == some lang &&
                    dget item "platform" == some platform)) st).1 = true := by
              rw [hspec.1, hpo]
            obtain ⟨pd, hpd, hrec⟩ := hspec.2.2.2.1 h1
            refine ⟨upsertRecord st.records (out_path pd) pd, st.nextId + 1, ?_,
              by simp, fun _ => ⟨pd, hpd, rfl, rfl⟩⟩
            simp [h1, hspec.2.1, hspec.2.2.1, hrec]

/-- The status `publish_content` writes is `failed` on failure and
`published` (or `preview` in preview mode) on success — never `pending`. -/
theorem pubOutcome_status (env : Env) (tts_data : List Dict)
    (content_id platform content_type lang : String) (preview_mode : Bool)
    (b : Bool) (s : String)
    (h : pubOutcome env tts_data content_id platform content_type lang preview_mode
      = .ok (b, s)) :
    (b = true → s = (if !preview_mode then "published" else "preview")) ∧
      (b = false → s = "failed") := by
  simp only [pubOutcome] at h
  repeat' split at h
  all_goals simp_all

/-! ### Scheduler lemmas -/

/-- `schedule_content` only appends: the final store is the initial store
followed by exactly the rows it reports as created. -/
theorem schedule_content_store (clock : Nat → Nat) (p ct l : String) :
    ∀ (items : List Dict) (st : SchedState),
      (schedule_content clock p ct l items st).2.store
        = st.store ++ (schedule_content clock p ct l items st).1
  | [], st => by simp [schedule_content]
  | item :: rest, st => by
    rcases hv : validate_content item with ⟨ok, item'⟩
    cases ok with
    | false =>
      simpa [schedule_content, hv] using schedule_content_store clock p ct l rest st
    | true =>
      by_cases hp : (dget item' "platform" != some p) = true
      · simpa [schedule_content, hv, hp] using schedule_content_store clock p ct l rest st
      · have hp' : (dget item' "platform" != some p) = false := by
          simpa using hp
        simp only [schedule_content, hv, hp', Bool.false_eq_true, if_false]
        rw [schedule_content_store clock p ct l rest]
        simp

/-- Invariant step for strict monotonicity of scheduled times: if the
stored times are strictly increasing and all below the next tick's value,
the same holds after a `schedule_content` call. -/
theorem schedule_content_mono (clock : Nat → Nat)
    (hclock : ∀ i j, i ≤ j → clock i ≤ clock j) (p ct l : String) :
    ∀ (items : List Dict) (st : SchedState),
      List.Pairwise (· < ·) (storeTimes st.store) →
      (∀ r ∈ st.store, r.scheduled_time < clock (st.counter + 1) + 5 * (st.counter + 1)) →
      List.Pairwise (· < ·)
          (storeTimes (schedule_content clock p ct l items st).2.store) ∧
        ∀ r ∈ (schedule_content clock p ct l items st).2.store,
          r.scheduled_time <
            clock ((schedule_content clock p ct l items st).2.counter + 1)
              + 5 * ((schedule_content clock p ct l items st).2.counter + 1)
  | [], st => by
    intro hpw hbd
    simpa [schedule_content] using ⟨hpw, hbd⟩
  | item :: rest, st => by
    intro hpw hbd
    rcases hv : validate_content item with ⟨ok, item'⟩
    cases ok with
    | false =>
      simpa [schedule_content, hv] using
        schedule_content_mono clock hclock p ct l rest st hpw hbd
    | true =>
      by_cases hp : (dget item' "platform" != some p) = true
      · simpa [schedule_content, hv, hp] using
          schedule_content_mono clock hclock p ct l rest st hpw hbd
      · have hc1 : clock (st.counter + 1) ≤ clock (st.counter + 1 + 1) :=
          hclock _ _ (by omega)
        have hpw' : List.Pairwise (· < ·)
            (storeTimes (st.store ++
              [⟨(dget item' "content_id").getD "", p, ct,
                (dget item'
                  (if ct != "voice_script" then ct else "voice_script")).getD "",
                clock (st.counter + 1) + 5 * (st.counter + 1), "pending",
                st.nextId, l⟩])) := by
          simp only [storeTimes, List.map_append, List.pairwise_append]
          refine ⟨hpw, by simp, ?_⟩
          intro a ha b hb
          simp only [List.map_map, List.mem_map] at ha
          obtain ⟨r, hr, hra⟩ := ha
          simp only [List.map_cons, List.map_nil, List.mem_singleton] at hb
          subst hb
          subst hra
          exact hbd r hr
        have hbd' : ∀ r ∈ (st.store ++
            [⟨(dget item' "content_id").getD "", p, ct,
              (dget item'
                (if ct != "voice_script" then ct else "voice_script")).getD "",
              clock (st.counter + 1) + 5 * (st.counter + 1), "pending",
              st.nextId, l⟩]),
            r.scheduled_time < clock (st.counter + 1 + 1) + 5 * (st.counter + 1 + 1) := by
          intro r hr
          rcases List.mem_append.1 hr with hr | hr
          · have := hbd r hr
            omega
          · simp only [List.mem_singleton] at hr
            subst hr
            simp only
            omega
        have ih := schedule_content_mono clock hclock p ct l rest
          ⟨st.counter + 1, st.nextId + 1, st.store ++
            [⟨(dget item' "content_id").getD "", p, ct,
              (dget item'
                (if ct != "voice_script" then ct else "voice_script")).getD "",
              clock (st.counter + 1) + 5 * (st.counter + 1), "pending",
              st.nextId, l⟩]⟩ hpw' hbd'
        simpa [schedule_content, hv, hp] using ih

/-- The monotonicity invariant carries through a whole run's sequence of
`schedule_content` calls. -/
theorem runCalls_mono (clock : Nat → Nat)
    (hclock : ∀ i j, i ≤ j → clock i ≤ clock j) :
    ∀ (calls : List Call) (st : SchedState),
      List.Pairwise (· < ·) (storeTimes st.store) →
      (∀ r ∈ st.store, r.scheduled_time < clock (st.counter + 1) + 5 * (st.counter + 1)) →
      List.Pairwise (· < ·) (storeTimes (runCalls clock calls st).2.store) ∧
        ∀ r ∈ (runCalls clock calls st).2.store,
          r.scheduled_time < clock ((runCalls clock calls st).2.counter + 1)
            + 5 * ((runCalls clock calls st).2.counter + 1)
  | [], st => by
    intro hpw hbd
    simpa [runCalls] using ⟨hpw, hbd⟩
  | c :: cs, st => by
    intro hpw hbd
    have h1 := schedule_content_mono clock hclock c.platform c.content_type c.lang
      c.items st hpw hbd
    have h2 := runCalls_mono clock hclock cs
      (schedule_content clock c.platform c.content_type c.lang c.items st).2
      h1.1 h1.2
    simpa [runCalls] using h2

/-- C1: within one scheduling run (a sequence of `schedule_content` calls
starting from a fresh `Scheduler`), the `scheduled_time` values of the
inserted rows are strictly increasing in insertion order — each new entry's
time is strictly greater than every earlier entry's time — provided the
wall clock read at each insertion is monotone. -/
theorem C1_scheduled_times_strictly_increasing (clock : Nat → Nat)
    (hclock : ∀ i j, i ≤ j → clock i ≤ clock j) (calls : List Call) :
    List.Pairwise (· < ·) (storeTimes ((runCalls clock calls initState).2.store)) :=
  (runCalls_mono clock hclock calls initState (by simp [initState, storeTimes])
    (by simp [initState])).1

/-- A run's calls only append: the final store is the initial store
followed by exactly the rows created during the run. -/
theorem runCalls_store (clock : Nat → Nat) :
    ∀ (calls : List Call) (st : SchedState),
      (runCalls clock calls st).2.store = st.store ++ (runCalls clock calls st).1
  | [], st => by simp [runCalls]
  | c :: cs, st => by
    simp only [runCalls]
    rw [runCalls_store clock cs, schedule_content_store]
    simp

/-- A validated item's (mutated) dict has its platform in the enumerated
platform set and its language in the supported set. -/
theorem validate_content_true (item d : Dict) (h : validate_content item = (true, d)) :
    platformEnum.contains ((dget d "platform").getD "") = true ∧
      supported_languages.contains ((dget d "language").getD "") = true := by
  simp only [validate_content] at h
  split at h
  · exact absurd (congrArg Prod.fst h) (by simp)
  · split at h
    · exact absurd (congrArg Prod.fst h) (by simp)
    · split at h
      · exact absurd (congrArg Prod.fst h) (by simp)
      · split at h
        · exact absurd (congrArg Prod.fst h) (by simp)
        · rename_i h1 h2 h3 h4
          obtain ⟨-, rfl⟩ := Prod.mk.injEq .. ▸ h
          constructor
          · simpa using h2
          · simpa using h3

/-- The per-row enumeration property of C8. -/
def rowSetsOK (r : Row) : Prop :=
  r.platform ∈ platformEnum ∧ r.lang ∈ supported_languages ∧ r.content_type ∈ ctEnum

/-- Rows inserted by `schedule_content` have their platform in the
enumerated set (forced by validation plus the platform-mismatch skip), and
carry the call's content type and language. -/
theorem schedule_content_rows (clock : Nat → Nat) (p ct l : String)
    (hct : ct ∈ ctEnum) (hl : l ∈ supported_languages) :
    ∀ (items : List Dict) (st : SchedState),
      (∀ r ∈ st.store, rowSetsOK r) →
      ∀ r ∈ (schedule_content clock p ct l items st).2.store, rowSetsOK r
  | [], st => by
    intro hst
    simpa [schedule_content] using hst
  | item :: rest, st => by
    intro hst
    rcases hv : validate_content item with ⟨ok, item'⟩
    cases ok with
    | false =>
      simpa [schedule_content, hv] using
        schedule_content_rows clock p ct l hct hl rest st hst
    | true =>
      by_cases hp : (dget item' "platform" != some p) = true
      · simpa [schedule_content, hv, hp] using
          schedule_content_rows clock p ct l hct hl rest st hst
      · have hpeq : dget item' "platform" = some p := by
          simpa using hp
        have hplat : p ∈ platformEnum := by
          have := (validate_content_true item item' hv).1
          rw [hpeq] at this
          simpa using this
        have hst' : ∀ r ∈ (st.store ++
            [⟨(dget item' "content_id").getD "", p, ct,
              (dget item'
                (if ct != "voice_script" then ct else "voice_script")).getD "",
              clock (st.counter + 1) + 5 * (st.counter + 1), "pending",
              st.nextId, l⟩]), rowSetsOK r := by
          intro r hr
          rcases List.mem_append.1 hr with hr | hr
          · exact hst r hr
          · simp only [List.mem_singleton] at hr
            subst hr
            exact ⟨hplat, hl, hct⟩
        have ih := schedule_content_rows clock p ct l hct hl rest
          ⟨st.counter + 1, st.nextId + 1, st.store ++
            [⟨(dget item' "content_id").getD "", p, ct,
              (dget item'
                (if ct != "voice_script" then ct else "voice_script")).getD "",
              clock (st.counter + 1) + 5 * (st.counter + 1), "pending",
              st.nextId, l⟩]⟩ hst'
        simpa [schedule_content, hv, hp] using ih

/-- The row enumeration property carries through a whole run. -/
theorem runCalls_rows (clock : Nat → Nat) :
    ∀ (calls : List Call) (st : SchedState),
      (∀ c ∈ calls, c.content_type ∈ ctEnum ∧ c.lang ∈ supported_languages) →
      (∀ r ∈ st.store, rowSetsOK r) →
      ∀ r ∈ (runCalls clock calls st).2.store, rowSetsOK r
  | [], st => by
    intro _ hst
    simpa [runCalls] using hst
  | c :: cs, st => by
    intro hcalls hst
    have h1 := schedule_content_rows clock c.platform c.content_type c.lang
      (hcalls c (by simp)).1 (hcalls c (by simp)).2 c.items st hst
    have h2 := runCalls_rows clock cs
      (schedule_content clock c.platform c.content_type c.lang c.items st).2
      (fun c' hc' => hcalls c' (by simp [hc'])) h1
    simpa [runCalls] using h2

/-- C8: an artifact failing validation is skipped — `schedule_content`
inserts nothing for it and leaves the state unchanged — and consequently a
run whose calls use the enumerated content types and supported languages
(as `run_scheduler`'s do) produces a store whose rows all have platform,
language and content type drawn from the enumerated sets. -/
theorem C8_invalid_skipped_store_enumerated :
    (∀ (clock : Nat → Nat) (p ct l : String) (item : Dict) (rest : List Dict)
        (st : SchedState), (validate_content item).1 = false →
        schedule_content clock p ct l (item :: rest) st
          = schedule_content clock p ct l rest st) ∧
      ∀ (clock : Nat → Nat) (calls : List Call),
        (∀ c ∈ calls, c.content_type ∈ ctEnum ∧ c.lang ∈ supported_languages) →
        ∀ r ∈ (runCalls clock calls initState).2.store,
          r.platform ∈ platformEnum ∧ r.lang ∈ supported_languages ∧
            r.content_type ∈ ctEnum := by
  constructor
  · intro clock p ct l item rest st h
    rcases hv : validate_content item with ⟨ok, item'⟩
    rw [hv] at h
    simp only at h
    subst h
    simp [schedule_content, hv]
  · intro clock calls hcalls r hr
    exact runCalls_rows clock calls initState hcalls (by simp [initState]) r hr

/-- C9: `run_scheduler` first drops and recreates the table, so its result
does not depend on the prior store contents, and the resulting store
contains exactly the rows created by this run's `schedule_content` calls
(no entry from an earlier run survives). -/
theorem C9_run_scheduler_full_reset (clock : Nat → Nat) (calls : List Call)
    (prior prior' : List Row) :
    run_scheduler clock calls prior = run_scheduler clock calls prior' ∧
      (run_scheduler clock calls prior).store = (runCalls clock calls initState).1 := by
  refine ⟨rfl, ?_⟩
  show (runCalls clock calls initState).2.store = (runCalls clock calls initState).1
  rw [runCalls_store]
  simp [initState]

/-! ### Publisher claim theorems -/

/-- Membership characterization of `fetch_due_posts` (shared lemma). -/
theorem fetch_due_posts_mem (store : List Row) (selected_language : String)
    (now : Nat) (t : DuePost) :
    t ∈ fetch_due_posts store selected_language now ↔
      ∃ r, r ∈ store ∧ r.status = "pending" ∧ r.scheduled_time ≤ now ∧
        (selected_language = "all" ∨ r.lang = selected_language) ∧
        t = (r.content_id, r.platform, r.content_type, r.lang) := by
  simp only [fetch_due_posts, List.mem_map, List.mem_filter, Bool.and_eq_true,
    beq_iff_eq, decide_eq_true_eq, Bool.or_eq_true]
  constructor
  · rintro ⟨r, ⟨hr, ⟨hs, ht⟩, hl⟩, rfl⟩
    exact ⟨r, hr, hs, ht, hl, rfl⟩
  · rintro ⟨r, hr, hs, ht, hl, rfl⟩
    exact ⟨r, ⟨hr, ⟨hs, ht⟩, hl⟩, rfl⟩

/-- C3: `fetch_due_posts` returns exactly the projections of the store
rows whose status is `pending`, whose `scheduled_time` is at most the
query time, and (when a specific language is selected) whose language
matches; in particular no returned entry has a `scheduled_time` above the
query time. -/
theorem C3_fetch_due_characterization (store : List Row) (selected_language : String)
    (now : Nat) (t : DuePost) :
    t ∈ fetch_due_posts store selected_language now ↔
      ∃ r, r ∈ store ∧ r.status = "pending" ∧ r.scheduled_time ≤ now ∧
        (selected_language = "all" ∨ r.lang = selected_language) ∧
        t = (r.content_id, r.platform, r.content_type, r.lang) :=
  fetch_due_posts_mem store selected_language now t

/-- Per-index characterization of `update_status` (shared lemma). -/
theorem update_status_get (content_id platform lang status : String)
    (store : List Row) :
    (update_status content_id platform lang status store).length = store.length ∧
      ∀ i : Nat, (update_status content_id platform lang status store).get? i =
        (store.get? i).map (fun r =>
          if r.content_id = content_id ∧ r.platform = platform ∧ r.lang = lang then
            { r with status := status }
          else r) := by
  refine ⟨by simp [update_status], ?_⟩
  intro i
  simp only [update_status, List.get?_map]
  cases h : store.get? i with
  | none => rfl
  | some r =>
    simp only [Option.map_some']
    have hbp : (r.content_id == content_id && r.platform == platform
          && r.lang == lang) = true ↔
        (r.content_id = content_id ∧ r.platform = platform ∧ r.lang = lang) := by
      simp [and_assoc]
    by_cases hc : r.content_id = content_id ∧ r.platform = platform ∧ r.lang = lang
    · rw [if_pos (hbp.mpr hc), if_pos hc]
    · rw [if_neg (fun hb => hc (hbp.mp hb)), if_neg hc]

/-- C10: the status write is keyed by `(content_id, platform, lang)`, not
by `post_id`: `update_status` rewrites the status of every row whose
triple matches — including any sibling entry sharing the triple — and
leaves every other row completely unchanged (and the store's length and
order untouched). -/
theorem C10_update_status_frame (content_id platform lang status : String)
    (store : List Row) :
    (update_status content_id platform lang status store).length = store.length ∧
      ∀ i : Nat, (update_status content_id platform lang status store).get? i =
        (store.get? i).map (fun r =>
          if r.content_id = content_id ∧ r.platform = platform ∧ r.lang = lang then
            { r with status := status }
          else r) :=
  update_status_get content_id platform lang status store

/-- If the audio lookup came back empty (no exception), the directory
listing either raised `FileNotFoundError` (handled) or succeeded. -/
theorem get_audio_empty_listdir (env : Env) (content_id lang platform : String)
    (tts_data : List Dict)
    (h : get_audio_file env content_id lang platform tts_data = .ok "") :
    env.listdir lang = .error .notFound ∨ ∃ files, env.listdir lang = .ok files := by
  rw [get_audio_file] at h
  cases hf : tts_data.find? (fun item =>
      dget item "content_id" == some content_id &&
        dget item "language" == some lang && dget item "platform" == some platform &&
        (dget item "dummy_audio_path").getD "" != "") with
  | some item =>
    rw [hf] at h
    have hp := List.find?_some hf
    simp only [Bool.and_eq_true, bne_iff_ne, ne_eq] at hp
    simp only [Except.ok.injEq] at h
    exact absurd h hp.2
  | none =>
    rw [hf] at h
    cases hl : env.listdir lang with
    | error pe =>
      cases pe with
      | notFound => exact .inl rfl
      | other m => rw [hl] at h; simp at h
    | ok files => exact .inr ⟨files, rfl⟩

/-- When the directory listing does not raise an unhandled exception,
`get_content_file` returns normally. -/
theorem get_content_file_ok (env : Env) (content_id content_type lang platform : String)
    (h : env.listdir lang = .error .notFound ∨ ∃ files, env.listdir lang = .ok files) :
    ∃ cf, get_content_file env content_id content_type lang platform = .ok cf := by
  rcases h with h | ⟨files, h⟩
  · exact ⟨"", by rw [get_content_file, h]⟩
  · cases hf : files.find? (fun f =>
        matchesContentPattern content_type content_id platform f) with
    | some f => exact ⟨lang ++ "/" ++ f, by simp [get_content_file, h, hf]⟩
    | none => exact ⟨"", by simp [get_content_file, h, hf]⟩

/-- C5: a due sanatan voice-script entry whose audio sibling cannot be
located is marked `failed` and reported as a failure; its status is never
set to `published` (the single status write is `failed`, and no output
record is written). -/
theorem C5_missing_audio_fails (env : Env) (tts_data : List Dict)
    (content_id lang : String) (preview_mode : Bool) (st : PubState)
    (haudio : get_audio_file env content_id lang "sanatan" tts_data = .ok "") :
    ∃ nid, publish_content env tts_data content_id "sanatan" "voice_script" lang
          preview_mode st
        = .ok (false, ⟨update_status content_id "sanatan" lang "failed" st.store,
            st.records, nid⟩) ∧
      ∀ i r r', st.store.get? i = some r →
        (update_status content_id "sanatan" lang "failed" st.store).get? i = some r' →
        r'.status = "failed" ∨ r'.status = r.status := by
  obtain ⟨cf, hcf⟩ := get_content_file_ok env content_id "voice_script" lang "sanatan"
    (get_audio_empty_listdir env content_id lang "sanatan" tts_data haudio)
  have hout : pubOutcome env tts_data content_id "sanatan" "voice_script" lang
      preview_mode = .ok (false, "failed") := by
    rw [pubOutcome, hcf]
    by_cases hc : (cf == "") = true
    · simp [hc]
    · simp only [hc, if_false, Bool.false_eq_true]
      rw [if_pos (by rfl)]
      rw [haudio]
      simp
  obtain ⟨recs, nid, heq, hfalse, -⟩ :=
    (publish_content_spec env tts_data content_id "sanatan" "voice_script" lang
      preview_mode st).2 false "failed" hout
  refine ⟨nid, by rw [heq, hfalse rfl], ?_⟩
  intro i r r' hr hr'
  have := (update_status_get content_id "sanatan" lang "failed" st.store).2 i
  rw [hr', hr] at this
  simp only [Option.map_some', Option.some.injEq] at this
  subst this
  by_cases hc : r.content_id = content_id ∧ r.platform = "sanatan" ∧ r.lang = lang
  · rw [if_pos hc]
    exact .inl rfl
  · rw [if_neg hc]
    exact .inr rfl

/-- With the artifact located without exception, `publish_content`'s
outcome is always a normal return. -/
theorem pubOutcome_ok (env : Env) (tts_data : List Dict)
    (content_id platform content_type lang : String) (preview_mode : Bool)
    (cf : String)
    (hcf : get_content_file env content_id content_type lang platform = .ok cf) :
    ∃ b s, pubOutcome env tts_data content_id platform content_type lang preview_mode
      = .ok (b, s) := by
  simp only [pubOutcome, hcf]
  by_cases hc : (cf == "") = true
  · exact ⟨false, "failed", by simp [hc]⟩
  · simp only [hc, if_false, Bool.false_eq_true]
    cases ha : (if content_type == "voice_script" then
        get_audio_file env content_id lang platform tts_data
      else .ok "") with
    | error e => exact ⟨false, "failed", by simp [ha]⟩
    | ok audio_file =>
      by_cases hg : (content_type == "voice_script" && platform == "sanatan"
          && audio_file == "") = true
      · exact ⟨false, "failed", by simp [ha, hg]⟩
      · by_cases hpo : pubPlatformOutcome env platform (env.readJson cf) content_type
            audio_file lang preview_mode (load_translated_content env content_id lang)
            (tts_data.find? (fun item =>
              dget item "content_id" == some content_id &&
                dget item "language" == some lang &&
                dget item "platform" == some platform)) = true
        · exact ⟨true, if !preview_mode then "published" else "preview",
            by simp [ha, hg, hpo]⟩
        · exact ⟨false, "failed", by simp [ha, hg, hpo]⟩

/-- C6 (as the code implements it): an exception inside `publish_content`'s
guarded region — artifact loading, translation and TTS lookup, audio
lookup, payload formatting, record writing — is caught: the entry is
marked `failed` on failure and the verdict is returned normally, so the
batch continues.  But an exception escaping the initial artifact-location
step (`get_content_file`, anything other than its internally handled
`FileNotFoundError`) propagates to the caller unhandled. -/
theorem C6_exception_containment :
    (∀ (env : Env) (tts_data : List Dict)
        (content_id platform content_type lang : String) (preview_mode : Bool)
        (st : PubState) (m : String),
        env.listdir lang = .error (.other m) →
        publish_content env tts_data content_id platform content_type lang preview_mode st
          = .error (.other m)) ∧
      ∀ (env : Env) (tts_data : List Dict)
        (content_id platform content_type lang : String) (preview_mode : Bool)
        (st : PubState) (cf : String),
        get_content_file env content_id content_type lang platform = .ok cf →
        ∃ b st', publish_content env tts_data content_id platform content_type lang
              preview_mode st = .ok (b, st') ∧
          (b = false →
            st'.store = update_status content_id platform lang "failed" st.store) ∧
          (b = true →
            st'.store = update_status content_id platform lang
              (if !preview_mode then "published" else "preview") st.store) := by
  constructor
  · intro env tts_data content_id platform content_type lang preview_mode st m hl
    simp [publish_content, get_content_file, hl]
  · intro env tts_data content_id platform content_type lang preview_mode st cf hcf
    obtain ⟨b, s, hbs⟩ := pubOutcome_ok env tts_data content_id platform content_type
      lang preview_mode cf hcf
    obtain ⟨recs, nid, heq, -, -⟩ :=
      (publish_content_spec env tts_data content_id platform content_type lang
        preview_mode st).2 b s hbs
    have hstat := pubOutcome_status env tts_data content_id platform content_type lang
      preview_mode b s hbs
    refine ⟨b, _, heq, fun hb => ?_, fun hb => ?_⟩
    · simp only
      rw [hstat.2 hb]
    · simp only
      rw [hstat.1 hb]

/-- Witness store for the C6 counterexample. -/
def stC6 : PubState :=
  ⟨[⟨"c1", "twitter", "tweet", "hello", 6, "pending", 0, "en"⟩], [], 0⟩

/-- Environment whose directory listing raises a non-`FileNotFoundError`
exception (e.g. `PermissionError`). -/
def envC6 : Env :=
  { listdir := fun _ => .error (.other "permission denied"),
    readJson := fun _ => [], translated := [], writeFails := false, now := 0 }

/-- C6 counterexample: an exception raised during artifact lookup is *not*
caught by `publish_content` — it propagates to the caller (aborting the
batch) and the entry is not marked `failed`, contradicting the claim that
any exception during artifact lookup yields a `failed` mark and a normal
failure return. -/
theorem C6_counterexample :
    publish_content envC6 [] "c1" "twitter" "tweet" "en" false stC6
      = .error (.other "permission denied") := rfl

/-- A second matching `update_status` with the same status is a no-op. -/
theorem update_status_idem (content_id platform lang status : String)
    (store : List Row) :
    update_status content_id platform lang status
        (update_status content_id platform lang status store)
      = update_status content_id platform lang status store := by
  simp only [update_status, List.map_map]
  apply List.map_congr_left
  intro r _
  obtain ⟨rc, rp, rct, rcon, rt, rs, rpid, rl⟩ := r
  simp only [Function.comp_apply]
  by_cases hc : (rc == content_id && rp == platform && rl == lang) = true
  · simp [hc]
  · simp [hc]

/-- C4 (as the code implements it): publishing the same schedule entry
twice is idempotent at the *status* level — same verdict, and the second
status write leaves the store exactly as after the first — but not at the
*record* level: each successful publish generates a fresh uuid and writes
its own output record, so the second publish adds a record named after a
different uuid instead of overwriting the first. -/
theorem C4_double_publish (env : Env) (tts_data : List Dict)
    (content_id platform content_type lang : String) (preview_mode : Bool)
    (st st1 st2 : PubState) (b1 b2 : Bool)
    (h1 : publish_content env tts_data content_id platform content_type lang
      preview_mode st = .ok (b1, st1))
    (h2 : publish_content env tts_data content_id platform content_type lang
      preview_mode st1 = .ok (b2, st2)) :
    b2 = b1 ∧ st2.store = st1.store ∧
      (b1 = false → st1.records = st.records ∧ st2.records = st.records) ∧
      (b1 = true → ∃ pd1 pd2 : PostData,
        st1.records = upsertRecord st.records (out_path pd1) pd1 ∧
        st2.records = upsertRecord st1.records (out_path pd2) pd2 ∧
        pd1.post_id ≠ pd2.post_id) := by
  cases hpo : pubOutcome env tts_data content_id platform content_type lang
      preview_mode with
  | error e =>
    exact absurd (((publish_content_spec env tts_data content_id platform content_type
      lang preview_mode st).1 e hpo).symm.trans h1) (by simp)
  | ok bs =>
    obtain ⟨b, s⟩ := bs
    obtain ⟨recs, nid, heq, hfalse, htrue⟩ :=
      (publish_content_spec env tts_data content_id platform content_type lang
        preview_mode st).2 b s hpo
    rw [h1] at heq
    simp only [Except.ok.injEq, Prod.mk.injEq] at heq
    obtain ⟨hb1, hst1⟩ := heq
    subst hst1
    obtain ⟨recs2, nid2, heq2, hfalse2, htrue2⟩ :=
      (publish_content_spec env tts_data content_id platform content_type lang
        preview_mode ⟨update_status content_id platform lang s st.store, recs, nid⟩).2
        b s hpo
    rw [h2] at heq2
    simp only [Except.ok.injEq, Prod.mk.injEq] at heq2
    obtain ⟨hb2, hst2⟩ := heq2
    subst hst2
    refine ⟨hb2.trans hb1.symm, ?_, fun hb => ?_, fun hb => ?_⟩
    · simp only
      exact update_status_idem content_id platform lang s st.store
    · have hbf : b = false := hb1 ▸ hb
      exact ⟨hfalse hbf, (hfalse2 hbf).trans (hfalse hbf)⟩
    · have hbt : b = true := hb1 ▸ hb
      obtain ⟨pd1, hpd1, hnid, hrec1⟩ := htrue hbt
      obtain ⟨pd2, hpd2, hnid2, hrec2⟩ := htrue2 hbt
      refine ⟨pd1, pd2, hrec1, ?_, ?_⟩
      · simpa using hrec2
      · rw [hpd1, hpd2]
        simp only
        omega

/-! ### C2: one-directional status transitions -/

/-- One step of the status state machine is legal: a `pending` row may
stay or move to `published`/`preview`/`failed`; a row that has left
`pending` must be completely unchanged. -/
def stepOKb (r r' : Row) : Bool :=
  if r.status == "pending" then
    r'.status == "pending" || r'.status == "published" || r'.status == "preview" ||
      r'.status == "failed"
  else r' == r

/-- Two consecutive store states are related row-by-row by `stepOKb`. -/
def stepStoresOKb (s s' : List Row) : Bool :=
  s.length == s'.length && (s.zip s').all (fun p => stepOKb p.1 p.2)

/-- Every adjacent pair of store states in a trace is a legal step. -/
def traceOK : List (List Row) → Bool
  | [] => true
  | [_] => true
  | s :: s' :: rest => stepStoresOKb s s' && traceOK (s' :: rest)

/-- The `update_status` key of a due entry, applied to a row. -/
def matchesKey (r : Row) (d : DuePost) : Bool :=
  r.content_id == d.1 && r.platform == d.2.1 && r.lang == d.2.2.2

/-- The status that processing a due entry writes (when it returns
normally). -/
def outStatus (env : Env) (tts_data : List Dict) (preview_mode : Bool)
    (d : DuePost) : String :=
  match pubOutcome env tts_data d.1 d.2.1 d.2.2.1 d.2.2.2 preview_mode with
  | .ok (_, s) => s
  | .error _ => "pending"

theorem stepOKb_refl (r : Row) : stepOKb r r = true := by
  rw [stepOKb]
  by_cases h : (r.status == "pending") = true
  · simp [h]
  · simp [h]

/-- A pair drawn from `l.zip (l.map f)` is of the form `(a, f a)` with
`a ∈ l`. -/
theorem mem_zip_map {l : List Row} {f : Row → Row} {p : Row × Row}
    (hp : p ∈ l.zip (l.map f)) : p.1 ∈ l ∧ p.2 = f p.1 := by
  induction l with
  | nil => simp at hp
  | cons a t ih =>
    simp only [List.map_cons, List.zip_cons_cons, List.mem_cons] at hp
    rcases hp with rfl | hp
    · exact ⟨by simp, rfl⟩
    · obtain ⟨h1, h2⟩ := ih hp
      exact ⟨by simp [h1], h2⟩

/-- A store mapped row-by-row through a legal step function is a legal
step. -/
theorem stepStores_map (s : List Row) (f : Row → Row)
    (h : ∀ r ∈ s, stepOKb r (f r) = true) : stepStoresOKb s (s.map f) = true := by
  have hall : ∀ p ∈ s.zip (s.map f), stepOKb p.1 p.2 = true := by
    intro p hp
    obtain ⟨h1, h2⟩ := mem_zip_map hp
    rw [h2]
    exact h p.1 h1
  have h1 : (s.length == (s.map f).length) = true := by simp
  have h2 : ((s.zip (s.map f)).all fun p => stepOKb p.1 p.2) = true :=
    List.all_eq_true.mpr hall
  show (s.length == (s.map f).length && (s.zip (s.map f)).all fun p => stepOKb p.1 p.2)
    = true
  rw [h1, h2]
  rfl

/-- A trace always starts at the initial store. -/
theorem storeTrace_head (env : Env) (tts_data : List Dict) (preview_mode : Bool) :
    ∀ (due : List DuePost) (st : PubState), ∃ tl,
      storeTrace env tts_data preview_mode due st = st.store :: tl
  | [], st => ⟨[], rfl⟩
  | (content_id, platform, content_type, lang) :: rest, st => by
    rw [storeTrace]
    cases hp : publish_content env tts_data content_id platform content_type lang
        preview_mode st with
    | error e => exact ⟨[], rfl⟩
    | ok pair => exact ⟨storeTrace env tts_data preview_mode rest pair.2, rfl⟩

/-- Invariant induction for the publisher's processing loop: if the
3-triple of any two due entries determines the whole entry, and every
store row matching a due entry's key is still `pending` or already carries
that entry's outcome status, then the whole trace is made of legal
steps. -/
theorem storeTrace_stepOK (env : Env) (tts_data : List Dict) (preview_mode : Bool) :
    ∀ (due : List DuePost) (st : PubState),
      (∀ d₁ ∈ due, ∀ d₂ ∈ due, d₁.1 = d₂.1 → d₁.2.1 = d₂.2.1 → d₁.2.2.2 = d₂.2.2.2 →
        d₁ = d₂) →
      (∀ d ∈ due, ∀ r ∈ st.store, matchesKey r d = true →
        r.status = "pending" ∨ r.status = outStatus env tts_data preview_mode d) →
      traceOK (storeTrace env tts_data preview_mode due st) = true
  | [], st => by
    intro _ _
    rfl
  | (content_id, platform, content_type, lang) :: rest, st => by
    intro hdet hinv
    simp only [storeTrace]
    cases hpub : publish_content env tts_data content_id platform content_type lang
        preview_mode st with
    | error e => simp [hpub, traceOK]
    | ok pair =>
      obtain ⟨bv, st'⟩ := pair
      simp only [hpub]
      cases hpo : pubOutcome env tts_data content_id platform content_type lang
          preview_mode with
      | error e =>
        exact absurd (((publish_content_spec env tts_data content_id platform
          content_type lang preview_mode st).1 e hpo).symm.trans hpub) (by simp)
      | ok bs =>
        obtain ⟨b, s⟩ := bs
        obtain ⟨recs, nid, heq, -, -⟩ :=
          (publish_content_spec env tts_data content_id platform content_type lang
            preview_mode st).2 b s hpo
        rw [hpub] at heq
        simp only [Except.ok.injEq, Prod.mk.injEq] at heq
        obtain ⟨hb, hst'⟩ := heq
        have hsts : s = "published" ∨ s = "preview" ∨ s = "failed" := by
          have hstat := pubOutcome_status env tts_data content_id platform content_type
            lang preview_mode b s hpo
          cases b with
          | false => exact .inr (.inr (hstat.2 rfl))
          | true =>
            rw [hstat.1 rfl]
            cases preview_mode <;> simp
        have hout : outStatus env tts_data preview_mode
            (content_id, platform, content_type, lang) = s := by
          rw [outStatus, hpo]
        -- the processed entry is in the due list
        have hdm : (content_id, platform, content_type, lang)
            ∈ (content_id, platform, content_type, lang) :: rest := by simp
        -- the updated store
        have hstore' : st'.store
            = update_status content_id platform lang s st.store := by
          rw [hst']
        -- step legality
        have hstep : stepStoresOKb st.store st'.store = true := by
          rw [hstore', update_status]
          apply stepStores_map
          intro r hr
          by_cases hm : (r.content_id == content_id && r.platform == platform
              && r.lang == lang) = true
          · rw [if_pos hm]
            rcases hinv _ hdm r hr (by simpa [matchesKey] using hm) with hpend | hcur
            · rw [stepOKb, if_pos (by simp [hpend])]
              rcases hsts with h | h | h <;> subst h <;> simp
            · rw [hout] at hcur
              have hrr : ({ r with status := s } : Row) = r := by
                rw [← hcur]
              rw [hrr]
              exact stepOKb_refl r
          · rw [if_neg hm]
            exact stepOKb_refl r
        -- invariant for the remaining entries
        have hinv' : ∀ d ∈ rest, ∀ r' ∈ st'.store, matchesKey r' d = true →
            r'.status = "pending" ∨ r'.status = outStatus env tts_data preview_mode d := by
          intro d hd r' hr'
          rw [hstore', update_status] at hr'
          obtain ⟨r, hr, rfl⟩ := List.mem_map.1 hr'
          intro hmk
          by_cases hm : (r.content_id == content_id && r.platform == platform
              && r.lang == lang) = true
          · rw [if_pos hm] at hmk ⊢
            -- r matches both the processed entry's key and d's key
            have hmk0 : matchesKey r d = true := by
              simpa [matchesKey] using hmk
            have hmp : matchesKey r (content_id, platform, content_type, lang) = true := by
              simpa [matchesKey] using hm
            simp only [matchesKey, Bool.and_eq_true, beq_iff_eq] at hmk0 hmp
            have hdd : (content_id, platform, content_type, lang) = d :=
              hdet _ hdm d (by simp [hd])
                (hmp.1.1.symm.trans hmk0.1.1) (hmp.1.2.symm.trans hmk0.1.2)
                (hmp.2.symm.trans hmk0.2)
            right
            rw [← hdd, hout]
          · rw [if_neg hm] at hmk ⊢
            exact hinv d (by simp [hd]) r hr hmk
        have ih := storeTrace_stepOK env tts_data preview_mode rest st'
          (fun d₁ h₁ d₂ h₂ => hdet d₁ (by simp [h₁]) d₂ (by simp [h₂])) hinv'
        obtain ⟨tl, htl⟩ := storeTrace_head env tts_data preview_mode rest st'
        rw [htl]
        rw [htl] at ih
        simp only [traceOK, Bool.and_eq_true]
        exact ⟨hstep, ih⟩

/-- C2: during a publisher run — fetching the due entries and publishing
each in turn — every schedule entry's status evolves one-directionally:
a `pending` entry can only stay `pending` or move to `published`,
`preview` or `failed`, and an entry that has left `pending` is never
modified again (in particular never set back to `pending`, and never
moved between terminal statuses).  The two hypotheses are invariants of
scheduler-produced stores: rows sharing the `(content_id, platform, lang)`
key share their `content_type` and their `status`. -/
theorem C2_status_one_directional (env : Env) (tts_data : List Dict)
    (preview_mode : Bool) (st : PubState) (selected_language : String) (now : Nat)
    (hct : ∀ r₁ ∈ st.store, ∀ r₂ ∈ st.store, r₁.content_id = r₂.content_id →
      r₁.platform = r₂.platform → r₁.lang = r₂.lang →
      r₁.content_type = r₂.content_type)
    (hst : ∀ r₁ ∈ st.store, ∀ r₂ ∈ st.store, r₁.content_id = r₂.content_id →
      r₁.platform = r₂.platform → r₁.lang = r₂.lang → r₁.status = r₂.status) :
    traceOK (storeTrace env tts_data preview_mode
      (fetch_due_posts st.store selected_language now) st) = true := by
  apply storeTrace_stepOK
  · intro d₁ h₁ d₂ h₂ hk1 hk2 hk3
    obtain ⟨r₁, hr₁, hp₁, -, -, hd₁⟩ :=
      (fetch_due_posts_mem st.store selected_language now d₁).1 h₁
    obtain ⟨r₂, hr₂, hp₂, -, -, hd₂⟩ :=
      (fetch_due_posts_mem st.store selected_language now d₂).1 h₂
    subst hd₁
    subst hd₂
    simp only at hk1 hk2 hk3
    simp only [Prod.mk.injEq]
    exact ⟨hk1, hk2, hct r₁ hr₁ r₂ hr₂ hk1 hk2 hk3, hk3⟩
  · intro d hd r hr hmk
    obtain ⟨rd, hrd, hpd, -, -, hdd⟩ :=
      (fetch_due_posts_mem st.store selected_language now d).1 hd
    subst hdd
    simp only [matchesKey, Bool.and_eq_true, beq_iff_eq] at hmk
    left
    rw [hst r hr rd hrd hmk.1.1 hmk.1.2 hmk.2, hpd]

/-- The `platforms` map of `run_scheduler`, as (platform, content type)
pairs: `tweet → twitter`, `post → instagram, linkedin`,
`voice_script → sanatan`. -/
def platformsMap : List (String × String) :=
  [("twitter", "tweet"), ("instagram", "post"), ("linkedin", "post"),
   ("sanatan", "voice_script")]

/-- Rows inserted by `schedule_content` are `pending` and carry the
call's (platform, content type) pair. -/
theorem schedule_content_pending_pair (clock : Nat → Nat) (p ct l : String)
    (hpair : (p, ct) ∈ platformsMap) :
    ∀ (items : List Dict) (st : SchedState),
      (∀ r ∈ st.store, r.status = "pending" ∧ (r.platform, r.content_type) ∈ platformsMap) →
      ∀ r ∈ (schedule_content clock p ct l items st).2.store,
        r.status = "pending" ∧ (r.platform, r.content_type) ∈ platformsMap
  | [], st => by
    intro hst
    simpa [schedule_content] using hst
  | item :: rest, st => by
    intro hst
    rcases hv : validate_content item with ⟨ok, item'⟩
    cases ok with
    | false =>
      simpa [schedule_content, hv] using
        schedule_content_pending_pair clock p ct l hpair rest st hst
    | true =>
      by_cases hp : (dget item' "platform" != some p) = true
      · simpa [schedule_content, hv, hp] using
          schedule_content_pending_pair clock p ct l hpair rest st hst
      · have hst' : ∀ r ∈ (st.store ++
            [⟨(dget item' "content_id").getD "", p, ct,
              (dget item'
                (if ct != "voice_script" then ct else "voice_script")).getD "",
              clock (st.counter + 1) + 5 * (st.counter + 1), "pending",
              st.nextId, l⟩]),
            r.status = "pending" ∧ (r.platform, r.content_type) ∈ platformsMap := by
          intro r hr
          rcases List.mem_append.1 hr with hr | hr
          · exact hst r hr
          · simp only [List.mem_singleton] at hr
            subst hr
            exact ⟨rfl, hpair⟩
        have ih := schedule_content_pending_pair clock p ct l hpair rest
          ⟨st.counter + 1, st.nextId + 1, st.store ++
            [⟨(dget item' "content_id").getD "", p, ct,
              (dget item'
                (if ct != "voice_script" then ct else "voice_script")).getD "",
              clock (st.counter + 1) + 5 * (st.counter + 1), "pending",
              st.nextId, l⟩]⟩ hst'
        simpa [schedule_content, hv, hp] using ih

/-- The pending/pair invariant carries through a whole run. -/
theorem runCalls_pending_pair (clock : Nat → Nat) :
    ∀ (calls : List Call) (st : SchedState),
      (∀ c ∈ calls, (c.platform, c.content_type) ∈ platformsMap) →
      (∀ r ∈ st.store, r.status = "pending" ∧ (r.platform, r.content_type) ∈ platformsMap) →
      ∀ r ∈ (runCalls clock calls st).2.store,
        r.status = "pending" ∧ (r.platform, r.content_type) ∈ platformsMap
  | [], st => by
    intro _ hst
    simpa [runCalls] using hst
  | c :: cs, st => by
    intro hcalls hst
    have h1 := schedule_content_pending_pair clock c.platform c.content_type c.lang
      (hcalls c (by simp)) c.items st hst
    have h2 := runCalls_pending_pair clock cs
      (schedule_content clock c.platform c.content_type c.lang c.items st).2
      (fun c' hc' => hcalls c' (by simp [hc'])) h1
    simpa [runCalls] using h2

/-- A store produced by a scheduling run whose calls follow
`run_scheduler`'s `platforms` map satisfies both hypotheses of the C2
theorem: rows sharing the `(content_id, platform, lang)` key share their
content type (the platform determines it) and their status (everything is
`pending`). -/
theorem scheduler_store_wf (clock : Nat → Nat) (calls : List Call)
    (hcalls : ∀ c ∈ calls, (c.platform, c.content_type) ∈ platformsMap) :
    (∀ r₁ ∈ (runCalls clock calls initState).2.store,
      ∀ r₂ ∈ (runCalls clock calls initState).2.store,
        r₁.content_id = r₂.content_id → r₁.platform = r₂.platform →
        r₁.lang = r₂.lang → r₁.content_type = r₂.content_type) ∧
      ∀ r₁ ∈ (runCalls clock calls initState).2.store,
        ∀ r₂ ∈ (runCalls clock calls initState).2.store,
          r₁.content_id = r₂.content_id → r₁.platform = r₂.platform →
          r₁.lang = r₂.lang → r₁.status = r₂.status := by
  have hall := runCalls_pending_pair clock calls initState hcalls (by simp [initState])
  constructor
  · intro r₁ h₁ r₂ h₂ _ hp _
    have m₁ := (hall r₁ h₁).2
    have m₂ := (hall r₂ h₂).2
    rw [hp] at m₁
    simp only [platformsMap, List.mem_cons, List.mem_singleton, Prod.mk.injEq,
      List.not_mem_nil, or_false] at m₁ m₂
    rcases m₁ with ⟨he, hc⟩ | ⟨he, hc⟩ | ⟨he, hc⟩ | ⟨he, hc⟩ <;>
      rcases m₂ with ⟨he', hc'⟩ | ⟨he', hc'⟩ | ⟨he', hc'⟩ | ⟨he', hc'⟩ <;>
      simp_all
  · intro r₁ h₁ r₂ h₂ _ _ _
    rw [(hall r₁ h₁).1, (hall r₂ h₂).1]

/-- Witness store for the C4 counterexample. -/
def stC4 : PubState :=
  ⟨[⟨"c1", "twitter", "tweet", "hello", 6, "pending", 0, "en"⟩], [], 0⟩

/-- Environment with one twitter artifact for `c1` and a working
filesystem. -/
def envC4 : Env :=
  { listdir := fun l => if l == "en" then .ok ["tweet_c1_twitter_ab.json"] else .ok [],
    readJson := fun _ => [("content_id", "c1"), ("tweet", "hello")],
    translated := [], writeFails := false, now := 0 }

/-- Publishing the same due entry twice in one batch. -/
def twiceC4 : Except PErr PubState :=
  processDue envC4 [] false
    [("c1", "twitter", "tweet", "en"), ("c1", "twitter", "tweet", "en")] stC4

/-- C4 counterexample: publishing the same entry twice produces *two*
output records, under two different uuid-derived names — the second
publish creates a second file instead of only overwriting the one
existing record, contradicting the claim. -/
theorem C4_counterexample :
    twiceC4.toOption.map (fun st => (st.records.map Prod.fst, st.store.map Row.status))
      = some (["post_c1_twitter_0.json", "post_c1_twitter_1.json"], ["published"]) := by
  decide

/-! ### C7: store errors -/

/-- Where the Schedule Store fails during a `schedule_content` call, by
phase of the call.  `sqlite3.Error` is a subclass of `Exception`, so which
handler catches it depends on where it is raised:
* `connect` — `sqlite3.connect` / `cursor` / `CREATE TABLE IF NOT EXISTS`,
  before the loop: only the outer `except sqlite3.Error: log; raise` is
  active;
* `insert` — the `INSERT` inside the per-item loop: the inner
  `except Exception: log; continue` is active and catches it first;
* `commit` — `conn.commit()` after the loop: only the outer handler is
  active. -/
inductive DbFault
  | healthy
  | connect
  | insert
  | commit
deriving Repr, DecidableEq

/-- The per-item loop of `schedule_content` when every `INSERT` raises:
for each item surviving validation and the platform check, the uuid has
been generated and the counter tick consumed before the `INSERT` raises,
the inner `except Exception` catches the error, nothing is appended to the
table or to `scheduled`, and the loop continues with the next item. -/
def schedule_content_insert_raises (clock : Nat → Nat)
    (platform content_type lang : String) : List Dict → SchedState → List Row × SchedState
  | [], st => ([], st)
  | item :: rest, st =>
    match validate_content item with
    | (false, _) => schedule_content_insert_raises clock platform content_type lang rest st
    | (true, item') =>
      if dget item' "platform" != some platform then
        schedule_content_insert_raises clock platform content_type lang rest st
      else
        schedule_content_insert_raises clock platform content_type lang rest
          ⟨st.counter + 1, st.nextId + 1, st.store⟩

/-- `Scheduler.schedule_content` with its two-level database error
handling.  A store error while opening/creating (`connect`) or committing
(`commit`) reaches the outer `except sqlite3.Error: log; raise` and
propagates; a store error on an `INSERT` is caught by the inner per-item
`except Exception: log; continue`, so the call returns normally having
scheduled nothing. -/
def scheduleContentE (fault : DbFault) (clock : Nat → Nat)
    (platform content_type lang : String) (items : List Dict) (st : SchedState) :
    Except String (List Row × SchedState) :=
  match fault with
  | .healthy => .ok (schedule_content clock platform content_type lang items st)
  | .connect => .error "sqlite3.Error"
  | .insert => .ok (schedule_content_insert_raises clock platform content_type lang items st)
  | .commit => .error "sqlite3.Error"

/-- `fetch_due_posts` with its error handling: the whole body sits in
`try: ... except Exception: log` and the function returns the (still
empty) `due_posts` list — a store failure is swallowed, never raised. -/
def fetchDuePostsE (dbOk : Bool) (store : List Row) (selected_language : String)
    (now : Nat) : Except String (List DuePost) :=
  .ok (if dbOk then fetch_due_posts store selected_language now else [])

/-- `update_status` with its error handling: `try: ... except Exception:
log` — a store failure leaves the table unchanged and is swallowed, never
raised. -/
def updateStatusE (dbOk : Bool) (content_id platform lang status : String)
    (store : List Row) : Except String (List Row) :=
  .ok (if dbOk then update_status content_id platform lang status store else store)

/-- With failing `INSERT`s the loop schedules nothing and leaves the
table untouched (only the counter and uuid source advance). -/
theorem schedule_content_insert_raises_spec (clock : Nat → Nat)
    (platform content_type lang : String) :
    ∀ (items : List Dict) (st : SchedState),
      (schedule_content_insert_raises clock platform content_type lang items st).1 = [] ∧
        (schedule_content_insert_raises clock platform content_type lang items st).2.store
          = st.store
  | [], st => ⟨rfl, rfl⟩
  | item :: rest, st => by
    rcases hv : validate_content item with ⟨ok, item'⟩
    cases ok with
    | false =>
      simpa [schedule_content_insert_raises, hv] using
        schedule_content_insert_raises_spec clock platform content_type lang rest st
    | true =>
      by_cases hp : (dget item' "platform" != some platform) = true
      · simpa [schedule_content_insert_raises, hv, hp] using
          schedule_content_insert_raises_spec clock platform content_type lang rest st
      · simpa [schedule_content_insert_raises, hv, hp] using
          schedule_content_insert_raises_spec clock platform content_type lang rest
            ⟨st.counter + 1, st.nextId + 1, st.store⟩

/-- C7 (as the code implements it).  Scheduler: a store error while
opening or creating the table, or while committing, re-raises out of
`schedule_content` and terminates the run; but a store *write* (`INSERT`)
error is caught by the per-item `except Exception` handler — the call
returns normally with nothing scheduled and the table untouched, and the
run continues.  Publisher: store errors never propagate —
`fetch_due_posts` returns an empty due list and `update_status` leaves
the store unchanged, both returning normally.  (With a healthy store all
operations agree with their plain versions.) -/
theorem C7_store_error_propagation :
    (∀ (clock : Nat → Nat) (platform content_type lang : String) (items : List Dict)
        (st : SchedState),
        scheduleContentE .connect clock platform content_type lang items st
          = .error "sqlite3.Error") ∧
      (∀ (clock : Nat → Nat) (platform content_type lang : String) (items : List Dict)
          (st : SchedState),
        scheduleContentE .commit clock platform content_type lang items st
          = .error "sqlite3.Error") ∧
      (∀ (clock : Nat → Nat) (platform content_type lang : String) (items : List Dict)
          (st : SchedState), ∃ st' : SchedState,
        scheduleContentE .insert clock platform content_type lang items st
            = .ok ([], st') ∧ st'.store = st.store) ∧
      (∀ (store : List Row) (selected_language : String) (now : Nat),
        fetchDuePostsE false store selected_language now = .ok []) ∧
      (∀ (content_id platform lang status : String) (store : List Row),
        updateStatusE false content_id platform lang status store = .ok store) ∧
      (∀ (clock : Nat → Nat) (platform content_type lang : String) (items : List Dict)
          (st : SchedState),
        scheduleContentE .healthy clock platform content_type lang items st
          = .ok (schedule_content clock platform content_type lang items st)) ∧
      (∀ (store : List Row) (selected_language : String) (now : Nat),
        fetchDuePostsE true store selected_language now
          = .ok (fetch_due_posts store selected_language now)) ∧
      ∀ (content_id platform lang status : String) (store : List Row),
        updateStatusE true content_id platform lang status store
          = .ok (update_status content_id platform lang status store) := by
  refine ⟨fun _ _ _ _ _ _ => rfl, fun _ _ _ _ _ _ => rfl, ?_,
    fun _ _ _ => rfl, fun _ _ _ _ _ => rfl,
    fun _ _ _ _ _ _ => rfl, fun _ _ _ => rfl, fun _ _ _ _ _ => rfl⟩
  intro clock platform content_type lang items st
  obtain ⟨h1, h2⟩ := schedule_content_insert_raises_spec clock platform content_type
    lang items st
  refine ⟨(schedule_content_insert_raises clock platform content_type lang items st).2,
    ?_, h2⟩
  show Except.ok (schedule_content_insert_raises clock platform content_type lang items st)
    = _
  rw [← h1]

/-- Store used in the C7 counterexample. -/
def storeC7 : List Row := [⟨"c1", "twitter", "tweet", "hello", 6, "pending", 0, "en"⟩]

/-- A valid twitter artifact, so the failing `INSERT` is actually
reached in the C7 counterexample. -/
def itemC7 : Dict :=
  [("content_id", "c1"), ("language", "en"), ("content_type", "tweet"),
   ("tweet", "hello"), ("platform", "twitter")]

/-- C7 counterexample: store errors that do *not* propagate.  A failing
`INSERT` (the store "cannot be written") makes `schedule_content` return
normally — `.ok` with nothing scheduled, the counter tick consumed and the
table untouched — instead of raising; and with a failing store the
Publisher's `fetch_due_posts` yields `.ok []` and `update_status` yields
`.ok` with the store untouched.  In all three cases the run continues,
contradicting the claim that such errors propagate and terminate it. -/
theorem C7_counterexample :
    scheduleContentE .insert (fun n => n) "twitter" "tweet" "en" [itemC7] initState
        = .ok ([], ⟨1, 1, []⟩) ∧
      fetchDuePostsE false storeC7 "all" 100 = .ok [] ∧
      updateStatusE false "c1" "twitter" "en" "published" storeC7 = .ok storeC7 :=
  ⟨rfl, rfl, rfl⟩

/-! ### Witnesses -/

/-- A monotone insertion clock for witnesses. -/
def clockW : Nat → Nat := fun n => n

/-- A valid twitter artifact dict. -/
def itemW : Dict :=
  [("content_id", "c1"), ("language", "en"), ("content_type", "tweet"),
   ("tweet", "hello"), ("platform", "twitter")]

/-- One scheduling run's calls used in witnesses. -/
def callsW : List Call := [⟨[itemW, itemW], "twitter", "tweet", "en"⟩]

theorem C1_witness :
    (∀ i j : Nat, i ≤ j → clockW i ≤ clockW j) ∧
      List.Pairwise (· < ·) (storeTimes ((runCalls clockW callsW initState).2.store)) :=
  ⟨fun _ _ h => h,
    C1_scheduled_times_strictly_increasing clockW (fun _ _ h => h) callsW⟩

/-- Environment for the C2 witness: no artifacts present, so the due
entry resolves to `failed`. -/
def envC2 : Env :=
  { listdir := fun _ => .ok [], readJson := fun _ => [], translated := [],
    writeFails := false, now := 0 }

/-- Store for the C2 witness: one due pending entry. -/
def stC2 : PubState :=
  ⟨[⟨"c1", "twitter", "tweet", "hello", 0, "pending", 0, "en"⟩], [], 0⟩

theorem C2_witness :
    (∀ r₁ ∈ stC2.store, ∀ r₂ ∈ stC2.store, r₁.content_id = r₂.content_id →
        r₁.platform = r₂.platform → r₁.lang = r₂.lang →
        r₁.content_type = r₂.content_type) ∧
      (∀ r₁ ∈ stC2.store, ∀ r₂ ∈ stC2.store, r₁.content_id = r₂.content_id →
        r₁.platform = r₂.platform → r₁.lang = r₂.lang → r₁.status = r₂.status) ∧
      traceOK (storeTrace envC2 [] false (fetch_due_posts stC2.store "all" 5) stC2)
        = true :=
  ⟨by decide, by decide,
    C2_status_one_directional envC2 [] false stC2 "all" 5 (by decide) (by decide)⟩

/-- First publish of the C4 witness (its verdict and resulting state). -/
def c4r1 : Bool × PubState :=
  ((publish_content envC4 [] "c1" "twitter" "tweet" "en" false stC4).toOption).getD
    (false, stC4)

/-- Second publish of the C4 witness. -/
def c4r2 : Bool × PubState :=
  ((publish_content envC4 [] "c1" "twitter" "tweet" "en" false c4r1.2).toOption).getD
    (false, stC4)

theorem C4_double_publish_witness :
    publish_content envC4 [] "c1" "twitter" "tweet" "en" false stC4
        = .ok (c4r1.1, c4r1.2) ∧
      publish_content envC4 [] "c1" "twitter" "tweet" "en" false c4r1.2
        = .ok (c4r2.1, c4r2.2) ∧
      (c4r2.1 = c4r1.1 ∧ c4r2.2.store = c4r1.2.store ∧
        (c4r1.1 = false → c4r1.2.records = stC4.records ∧ c4r2.2.records = stC4.records) ∧
        (c4r1.1 = true → ∃ pd1 pd2 : PostData,
          c4r1.2.records = upsertRecord stC4.records (out_path pd1) pd1 ∧
          c4r2.2.records = upsertRecord c4r1.2.records (out_path pd2) pd2 ∧
          pd1.post_id ≠ pd2.post_id)) :=
  ⟨rfl, rfl,
    C4_double_publish envC4 [] "c1" "twitter" "tweet" "en" false stC4 c4r1.2 c4r2.2
      c4r1.1 c4r2.1 rfl rfl⟩

/-- Environment for the C5 witness: no TTS data, no files in the
language directory, so no audio sibling can be located. -/
def envC5 : Env :=
  { listdir := fun _ => .ok [], readJson := fun _ => [], translated := [],
    writeFails := false, now := 0 }

/-- Store for the C5 witness: one sanatan voice-script entry. -/
def stC5 : PubState :=
  ⟨[⟨"c2", "sanatan", "voice_script", "om", 1, "pending", 0, "en"⟩], [], 0⟩

theorem C5_witness :
    get_audio_file envC5 "c2" "en" "sanatan" [] = .ok "" ∧
      ∃ nid, publish_content envC5 [] "c2" "sanatan" "voice_script" "en" false stC5
          = .ok (false, ⟨update_status "c2" "sanatan" "en" "failed" stC5.store,
              stC5.records, nid⟩) ∧
        ∀ i r r', stC5.store.get? i = some r →
          (update_status "c2" "sanatan" "en" "failed" stC5.store).get? i = some r' →
          r'.status = "failed" ∨ r'.status = r.status :=
  ⟨rfl, C5_missing_audio_fails envC5 [] "c2" "en" false stC5 rfl⟩

theorem C6_exception_containment_witness :
    (envC6.listdir "en" = .error (.other "permission denied") ∧
      publish_content envC6 [] "c1" "twitter" "tweet" "en" false stC6
        = .error (.other "permission denied")) ∧
      get_content_file envC4 "c1" "tweet" "en" "twitter"
          = .ok "en/tweet_c1_twitter_ab.json" ∧
        ∃ b st', publish_content envC4 [] "c1" "twitter" "tweet" "en" false stC4
            = .ok (b, st') ∧
          (b = false → st'.store = update_status "c1" "twitter" "en" "failed" stC4.store) ∧
          (b = true → st'.store = update_status "c1" "twitter" "en"
            (if !false then "published" else "preview") stC4.store) :=
  ⟨⟨rfl, C6_exception_containment.1 envC6 [] "c1" "twitter" "tweet" "en" false stC6
      "permission denied" rfl⟩,
    rfl,
    C6_exception_containment.2 envC4 [] "c1" "twitter" "tweet" "en" false stC4
      "en/tweet_c1_twitter_ab.json" rfl⟩

/-- An invalid artifact dict (missing every required field). -/
def badItemW : Dict := []

theorem C8_witness :
    ((validate_content badItemW).1 = false ∧
      schedule_content clockW "twitter" "tweet" "en" [badItemW] initState
        = schedule_content clockW "twitter" "tweet" "en" [] initState) ∧
      (∀ c ∈ callsW, c.content_type ∈ ctEnum ∧ c.lang ∈ supported_languages) ∧
        ∀ r ∈ (runCalls clockW callsW initState).2.store,
          r.platform ∈ platformEnum ∧ r.lang ∈ supported_languages ∧
            r.content_type ∈ ctEnum :=
  ⟨⟨by decide,
      C8_invalid_skipped_store_enumerated.1 clockW "twitter" "tweet" "en" badItemW []
        initState (by decide)⟩,
    by decide,
    C8_invalid_skipped_store_enumerated.2 clockW callsW (by decide)⟩

end Vaani
